import Mathlib

/-!
Verification development for the ClusteredDataGenerator repository.

The definitions below are a shallow embedding of the TypeScript sources:

* `src/generate.ts` — the parallel generate-and-merge pipeline: schema
  validation (`checkDuplicateOrders`), the ordinal sort, the batched CSV
  shard writer (`writeCSVInBatches` / its inner `writeBatch` loop), the
  primary process (coordinator) that forks workers and counts completion
  messages, and `mergeFiles` which concatenates the shard files.
* `src/unnamed/part_002` — the variant whose primary computes a per-worker
  record count that adjusts the last worker
  (`workerRecords = (i === numCPUs-1) ? numRecords - totalRecordsWritten
  : recordsPerWorker`).

Machine integers are modelled as `Nat`/`Int` (record counts never approach
2^53 overflow in the code's intended range, and the arithmetic involved —
`Math.ceil` division, subtraction, increment — is exact on JS numbers in
that range).  Fallible operations return `Except`/`Option`.  Row contents
produced by the external faker value provider are abstracted: line structure
(header vs. generated row) is kept, the random payload is not.
-/

/-- One schema entry, mirroring the `ColumnInfo` type of `src/generate.ts`:
all fields are strings in the JSON file; `Format` is optional. -/
structure ColumnInfo where
  DataType : String
  Format : Option String
  Order : String
  ExcelColumnName : String
  IsDate : String
  IsDouble : String
  IsInteger : String
deriving DecidableEq, Repr

/-- Model of JavaScript `parseInt(s)` (radix 10): skip leading whitespace,
accept an optional sign, then read the maximal run of leading decimal
digits; `none` models `NaN` (no digits found). -/
def parseIntJS (s : String) : Option Int :=
  let cs := s.toList.dropWhile (fun c => c.isWhitespace)
  let signed : Int × List Char :=
    match cs with
    | '-' :: r => (-1, r)
    | '+' :: r => (1, r)
    | _ => (1, cs)
  let ds := signed.2.takeWhile (fun c => c.isDigit)
  if ds.isEmpty then none
  else some (signed.1 * (ds.foldl (fun a c => a * 10 + ((c.toNat : Int) - 48)) 0))

/-- The numeric key the primary's sort comparator uses:
`parseInt(a.Order) - parseInt(b.Order)`.  Schemas in scope have digit
strings for `Order`, so the `NaN` fallback value is irrelevant there. -/
def orderKey (c : ColumnInfo) : Int :=
  (parseIntJS c.Order).getD 0

/-- Inner loop of `checkDuplicateOrders` from `src/generate.ts`: walk the
columns keeping the set of `Order` strings seen so far; throw on the first
string that repeats.  (The source uses a `Set<string>`; membership in a
list of the already-seen strings is the same test.) -/
def checkDuplicateOrdersGo (seen : List String) : List ColumnInfo → Except String Unit
  | [] => Except.ok ()
  | c :: rest =>
    if c.Order ∈ seen then
      Except.error ("Duplicate order number found: " ++ c.Order)
    else
      checkDuplicateOrdersGo (c.Order :: seen) rest

/-- `checkDuplicateOrders` from `src/generate.ts`: fails iff two columns
share the same `Order` *string*. -/
def checkDuplicateOrders (cols : List ColumnInfo) : Except String Unit :=
  checkDuplicateOrdersGo [] cols

/-- `jsonStructure.sort((a, b) => parseInt(a.Order) - parseInt(b.Order))`
from `src/generate.ts` line 118: a stable sort by the numeric value of
`Order` (ES2019 `Array.prototype.sort` is stable; `List.mergeSort` is the
stable sort with the same comparator semantics). -/
def sortByOrdinal (cols : List ColumnInfo) : List ColumnInfo :=
  List.mergeSort cols (fun a b => decide (orderKey a ≤ orderKey b))

/-- Outcome of the primary process's startup phase in `src/generate.ts`
(lines 114–149): the `.then` handler parses the schema, runs
`checkDuplicateOrders`, sorts, and only then forks workers; the `.catch`
handler merely does `console.error("Error processing data:", error)` —
it calls neither `process.exit` nor sets `process.exitCode`, so the
process later exits with the default status 0. -/
inductive StartupOutcome
  | proceed (sorted : List ColumnInfo)
  | schemaFailure (loggedMessage : String) (exitCode : Nat) (filesCreated : Bool)
deriving DecidableEq, Repr

/-- The primary startup sequence of `src/generate.ts`: validation happens
before any worker is forked and before any file is created; on a thrown
schema error the catch handler logs and the process exits 0. -/
def primaryStartup (cols : List ColumnInfo) : StartupOutcome :=
  match checkDuplicateOrders cols with
  | Except.error msg =>
      StartupOutcome.schemaFailure ("Error processing data: " ++ msg) 0 false
  | Except.ok _ => StartupOutcome.proceed (sortByOrdinal cols)

/-- A value produced by `generateRandomValue` as it reaches the row
encoder of `src/generate.ts`: a string, a JS number, or `null`.  A JS
number's decimal rendering consists of digits, `-`, `.` and `e` only, so
it is represented by its integer value here (the encoder never inspects
numeric structure, only `typeof value === 'string'`). -/
inductive JSValue
  | vStr (s : String)
  | vNum (n : Int)
  | vNull
deriving DecidableEq, Repr

/-- How `Array.prototype.join` renders one element: strings as themselves,
numbers via their decimal form, `null` as the empty string. -/
def joinForm : JSValue → String
  | JSValue.vStr s => s
  | JSValue.vNum n => toString n
  | JSValue.vNull => ""

/-- The per-field step of `createPersonObject` in `src/generate.ts`
(lines 61–66): a value is wrapped in double quotes iff it is a string
containing a comma (`value.includes(',')`, i.e. the comma character
occurs among the string's characters); every other value keeps its
natural join form. -/
def encodeField (v : JSValue) : String :=
  match v with
  | JSValue.vStr s =>
      if s.toList.contains ',' then "\"" ++ s ++ "\"" else s
  | _ => joinForm v

/-- `createPersonObject` of `src/generate.ts`, with the externally
generated values passed in explicitly (one per column, in the already
sorted column order): encode each field and join with the comma
delimiter. -/
def createPersonObject (values : List JSValue) : String :=
  String.intercalate "," (values.map encodeField)

/-- The header line of `writeCSVInBatches`
(`structure.map(col => col.ExcelColumnName).join(',')`). -/
def csvHeader (cols : List ColumnInfo) : String :=
  String.intercalate "," (cols.map (fun c => c.ExcelColumnName))

/-- Events of the `writeBatch` loop inside `writeCSVInBatches`
(`src/generate.ts` lines 76–99).  `headerWrite` is the unconditional
`writeStream.write(headers)` issued before the loop starts (its return
value is ignored by the source).  `batchWrite count saturated` is one
`writeStream.write(batch)` call writing `count` rows whose return value
was `!saturated`; `awaitDrain` is the `writeStream.once('drain', ...)`
suspension; `yieldTurn` is a `setImmediate(writeBatch)` hand-back to the
event scheduler; `streamEnd` is `writeStream.end(() => resolve())`. -/
inductive WriteEvent
  | headerWrite
  | batchWrite (count : Nat) (saturated : Bool)
  | awaitDrain
  | yieldTurn
  | streamEnd
deriving DecidableEq, Repr

/-- One unfolding of `writeBatch`: `total` is `recordsToGenerate`,
`batchSize` the batch size (default 50000), `written` the current
`recordsWritten`, `k` the index of this batch write, and `sat k` tells
whether the sink reports saturation (`write` returned `false`) for the
`k`-th batch write.  `fuel` bounds the recursion depth; each recursive
call consumes one unit, so any finite trace prefix is produced by some
fuel (the source loop itself terminates only because `batchSize > 0`). -/
def writeBatchLoop (total batchSize : Nat) (sat : Nat → Bool) :
    Nat → Nat → Nat → List WriteEvent
  | 0, _, _ => []
  | fuel + 1, written, k =>
    let batchEnd := min (written + batchSize) total
    let ev := WriteEvent.batchWrite (batchEnd - written) (sat k)
    if sat k then
      if batchEnd < total then
        ev :: WriteEvent.awaitDrain :: WriteEvent.yieldTurn ::
          writeBatchLoop total batchSize sat fuel batchEnd (k + 1)
      else
        [ev, WriteEvent.awaitDrain, WriteEvent.streamEnd]
    else
      if batchEnd < total then
        ev :: WriteEvent.yieldTurn ::
          writeBatchLoop total batchSize sat fuel batchEnd (k + 1)
      else
        [ev, WriteEvent.streamEnd]

/-- The whole of `writeCSVInBatches` as an event trace: header write
first, then the batch loop started at `recordsWritten = 0`. -/
def writeShardTrace (total batchSize : Nat) (sat : Nat → Bool) (fuel : Nat) :
    List WriteEvent :=
  WriteEvent.headerWrite :: writeBatchLoop total batchSize sat fuel 0 0

/-- Backpressure checker: scans a trace with a `blocked` flag.  A
saturating batch write sets the flag, `awaitDrain` clears it, and a batch
write issued while the flag is set is a violation.  (The pre-loop header
write is outside the batched-write loop and is not governed.) -/
def checkBackpressure (blocked : Bool) : List WriteEvent → Bool
  | [] => true
  | WriteEvent.batchWrite _ s :: rest =>
      !blocked && checkBackpressure s rest
  | WriteEvent.awaitDrain :: rest => checkBackpressure false rest
  | _ :: rest => checkBackpressure blocked rest

/-- Yield checker: between any two batch writes the loop must hand
control back to the event scheduler (`yieldTurn`).  `pending` records
that a batch write has happened with no yield since. -/
def checkYields (pending : Bool) : List WriteEvent → Bool
  | [] => true
  | WriteEvent.batchWrite _ _ :: rest => !pending && checkYields true rest
  | WriteEvent.yieldTurn :: rest => checkYields false rest
  | _ :: rest => checkYields pending rest

/-- A line of a produced CSV file, abstracting the random payload: either
the header line or the `idx`-th generated row of worker `w`. -/
inductive Line
  | header
  | row (w : Nat) (idx : Nat)
deriving DecidableEq, Repr

/-- `Math.ceil(numRecords / numCPUs)` — the per-worker record count
computed by the primary of `src/generate.ts` (line 109) and of
`src/unnamed/part_002`. -/
def recordsPerWorker (numRecords numCPUs : Nat) : Nat :=
  (numRecords + numCPUs - 1) / numCPUs

/-- The lines `writeCSVInBatches` puts into one shard file: the header
line followed by `count` generated rows in generation order. -/
def shardFileLines (w count : Nat) : List Line :=
  Line.header :: (List.range count).map (fun i => Line.row w i)

/-- The final `output.csv` produced by the `src/generate.ts` pipeline:
the primary sends every worker `recordsPerWorker` records (there is no
last-worker adjustment in this file), each worker writes its own shard
file — header included — and `mergeFiles` concatenates the shard files
whole, in ascending worker index order. -/
def finalOutputLines (numRecords numCPUs : Nat) : List Line :=
  (List.range numCPUs).flatMap
    (fun w => shardFileLines w (recordsPerWorker numRecords numCPUs))

/-- Number of data rows (non-header lines) in the final output. -/
def finalDataRowCount (numRecords numCPUs : Nat) : Nat :=
  (finalOutputLines numRecords numCPUs).countP
    (fun l => decide (l ≠ Line.header))

/-- Number of header lines in the final output. -/
def finalHeaderCount (numRecords numCPUs : Nat) : Nat :=
  (finalOutputLines numRecords numCPUs).count Line.header

/-- `const numRecords = parseInt(process.argv[2]) || 1000` from
`src/generate.ts` line 108: `parsed = none` models `NaN` (absent or
non-numeric argument); both `NaN` and `0` are falsy in JS, so both fall
back to 1000. -/
def cliNumRecords (parsed : Option Int) : Int :=
  match parsed with
  | none => 1000
  | some v => if v = 0 then 1000 else v

/-- Shared state of the primary's `worker.on('message')` handlers in
`src/generate.ts` (lines 126–140): the `completedWorkers` tally and how
many times `mergeFiles` has been invoked. -/
structure CoordState where
  completedWorkers : Nat
  mergeInvocations : Nat
deriving DecidableEq, Repr

/-- One delivery of a worker message to the primary: if
`message.completed` is set, increment `completedWorkers` and, exactly
when the tally reaches `numCPUs`, invoke `mergeFiles`. -/
def coordStep (numCPUs : Nat) (st : CoordState) (completed : Bool) : CoordState :=
  if completed then
    let c := st.completedWorkers + 1
    { completedWorkers := c
      mergeInvocations :=
        if c = numCPUs then st.mergeInvocations + 1 else st.mergeInvocations }
  else st

/-- The primary's handler state after a sequence of worker messages,
starting from `completedWorkers = 0` and no merge invoked. -/
def coordRun (numCPUs : Nat) (msgs : List Bool) : CoordState :=
  msgs.foldl (coordStep numCPUs) ⟨0, 0⟩

/-- Messages a worker of `src/generate.ts` (lines 151–165) sends to the
primary: on `writeCSVInBatches` success it sends the single
`{ completed: true }` message; on failure the `.catch` handler logs and
calls `process.exit(1)` without sending anything. -/
def workerSignals (ok : Bool) : List Bool :=
  if ok then [true] else []

/-- Exit status of a worker: 1 via `process.exit(1)` on a write error;
a successful worker does not exit itself (status determined later by the
primary's teardown), modelled as 0. -/
def workerExitCode (ok : Bool) : Nat :=
  if ok then 0 else 1

/-- Filesystem/stream actions of `mergeFiles` (`src/generate.ts` lines
168–210): append the full contents of shard `i` to `output.csv`; delete
shard file `i` (`fs.unlink`, issued in the read stream's `end` handler);
close the output stream (`outputStream.end()`). -/
inductive MergeEvent
  | append (i : Nat)
  | delete (i : Nat)
  | close
deriving DecidableEq, Repr

/-- `appendNextFile` of `mergeFiles`, error-free case: `shards i` is the
content of shard file `i`; `remaining = numFiles - currentFile` drives the
recursion.  Returns the final `output.csv` content and the action trace. -/
def mergeFrom (shards : Nat → List α) : Nat → Nat → List α × List MergeEvent
  | 0, _ => ([], [MergeEvent.close])
  | remaining + 1, current =>
    let rest := mergeFrom shards remaining (current + 1)
    (shards current ++ rest.1,
      MergeEvent.append current :: MergeEvent.delete current :: rest.2)

/-- `mergeFiles(numFiles)` of `src/generate.ts`, error-free case, started
at `currentFile = 0`. -/
def mergeFilesRun (shards : Nat → List α) (numFiles : Nat) :
    List α × List MergeEvent :=
  mergeFrom shards numFiles 0

/-- On-disk outcome of a `mergeFiles` run in the fallible model:
`output` is the content of `output.csv` (the file is created by
`createWriteStream` as soon as `mergeFiles` starts, so it is present in
every case); `deleted` lists the shard indices whose files were
unlinked; `closed` records whether `outputStream.end()` ran; `failedAt`
is the index of the shard at which the merge failed — because that
shard file was unreadable or because the final sink reported a write
error while that shard was being piped — if any. -/
structure MergeOutcome (α : Type) where
  output : List α
  deleted : List Nat
  closed : Bool
  failedAt : Option Nat
deriving DecidableEq, Repr

/-- `appendNextFile` with both failure sources of `mergeFiles`.
`shards i = none` models an unreadable shard file: the read stream
errors at open, before any data is piped, and `readStream.on('error')`
rejects.  `sinkFail i = some accepted` models the final sink
(`outputStream`) reporting a write error while shard `i` is piped,
after accepting `accepted` of its lines: `outputStream.on('error')`
rejects, `pipe` unpipes the source so its `end` event (which holds the
`fs.unlink` and the advance to the next shard) never fires.  In either
case nothing further is appended or deleted, the output stream is
neither closed nor removed, and no marker is written. -/
def mergeFromE (shards : Nat → Option (List α)) (sinkFail : Nat → Option Nat) :
    Nat → Nat → MergeOutcome α
  | 0, _ => ⟨[], [], true, none⟩
  | remaining + 1, current =>
    match shards current with
    | none => ⟨[], [], false, some current⟩
    | some content =>
      match sinkFail current with
      | some accepted => ⟨content.take accepted, [], false, some current⟩
      | none =>
        let rest := mergeFromE shards sinkFail remaining (current + 1)
        ⟨content ++ rest.output, current :: rest.deleted, rest.closed, rest.failedAt⟩

/-- `mergeFiles(numFiles)` with fallible shard reads and a fallible
final sink. -/
def mergeFilesRunE (shards : Nat → Option (List α)) (sinkFail : Nat → Option Nat)
    (numFiles : Nat) : MergeOutcome α :=
  mergeFromE shards sinkFail numFiles 0

/-- Exit status of the primary after the merge phase (`src/generate.ts`
lines 129–138): `mergeFiles(...).then(() => process.exit(0)).catch(() =>
process.exit(1))`. -/
def mergeExitCode (o : MergeOutcome α) : Nat :=
  if o.failedAt.isSome then 1 else 0

/-- Per-worker record counts dispatched by the primary of
`src/unnamed/part_002` (lines 145–149):
`workerRecords = (i === numCPUs - 1) ? numRecords - totalRecordsWritten
: recordsPerWorker`, where `totalRecordsWritten` has accumulated the
previous workers' counts — `recordsPerWorker * i` at worker `i < last`.
JS numbers go negative freely, hence `Int`. -/
def shardSizes (numRecords numCPUs : Nat) : List Int :=
  (List.range numCPUs).map (fun i =>
    if i = numCPUs - 1 then
      (numRecords : Int) - (recordsPerWorker numRecords numCPUs : Int) * i
    else
      (recordsPerWorker numRecords numCPUs : Int))

/-- Characterization of the duplicate-order walk: it succeeds iff the
columns' `Order` strings are pairwise distinct and none was already
seen. -/
lemma checkDuplicateOrdersGo_ok_iff (cols : List ColumnInfo) :
    ∀ seen : List String,
      checkDuplicateOrdersGo seen cols = Except.ok () ↔
        ((cols.map (fun c => c.Order)).Nodup ∧
          ∀ s ∈ cols.map (fun c => c.Order), s ∉ seen) := by
  induction cols with
  | nil => intro seen; simp [checkDuplicateOrdersGo]
  | cons c rest ih =>
    intro seen
    by_cases h : c.Order ∈ seen
    · rw [checkDuplicateOrdersGo, if_pos h]
      constructor
      · intro habs; cases habs
      · rintro ⟨-, hall⟩
        exact absurd h (hall c.Order (List.mem_cons_self _ _))
    · rw [checkDuplicateOrdersGo, if_neg h, ih]
      constructor
      · rintro ⟨hnd, hall⟩
        have hhd : c.Order ∉ List.map (fun x => x.Order) rest := fun hm =>
          hall c.Order hm (List.mem_cons_self _ _)
        refine ⟨List.nodup_cons.mpr ⟨hhd, hnd⟩, ?_⟩
        intro s hs
        rcases List.mem_cons.mp hs with hEq | hm
        · subst hEq; exact h
        · exact fun hcon => hall s hm (List.mem_cons_of_mem _ hcon)
      · rintro ⟨hnd, hall⟩
        obtain ⟨hhd, hnd2⟩ := List.nodup_cons.mp hnd
        refine ⟨hnd2, ?_⟩
        intro s hm hcon
        rcases List.mem_cons.mp hcon with hEq | hin
        · subst hEq; exact hhd hm
        · exact hall s (List.mem_cons_of_mem _ hm) hin

/-- `checkDuplicateOrders` succeeds iff no two columns share the same
`Order` string. -/
lemma checkDuplicateOrders_ok_iff (cols : List ColumnInfo) :
    checkDuplicateOrders cols = Except.ok () ↔
      (cols.map (fun c => c.Order)).Nodup := by
  simpa [checkDuplicateOrders] using checkDuplicateOrdersGo_ok_iff cols []

/-- Folding the primary's message handler over `j` completion messages
starting from tally `c`: the tally advances by `j` and `mergeFiles` is
invoked exactly when the tally crosses `numCPUs`. -/
lemma coordStep_foldl_replicate (W : Nat) :
    ∀ (j c m : Nat),
      (List.replicate j true).foldl (coordStep W) ⟨c, m⟩ =
        ⟨c + j, m + if c < W ∧ W ≤ c + j then 1 else 0⟩ := by
  intro j
  induction j with
  | zero =>
    intro c m
    have hfalse : ¬(c < W ∧ W ≤ c + 0) := by omega
    simp [hfalse]
  | succ j ih =>
    intro c m
    rw [List.replicate_succ, List.foldl_cons]
    have hstep : coordStep W ⟨c, m⟩ true =
        ⟨c + 1, m + if c + 1 = W then 1 else 0⟩ := by
      simp only [coordStep, if_pos]
      split <;> simp_all
    rw [hstep, ih]
    have h1 : c + 1 + j = c + (j + 1) := by omega
    rw [h1]
    congr 1
    split_ifs <;> omega

/-- The primary's handler state after receiving `j` completion messages:
the merge is invoked exactly once when `j` reaches `numCPUs`, never for
any smaller tally. -/
lemma coordRun_replicate (W j : Nat) :
    coordRun W (List.replicate j true) =
      ⟨j, if 1 ≤ W ∧ W ≤ j then 1 else 0⟩ := by
  rw [coordRun, coordStep_foldl_replicate]
  congr 1
  · omega
  · split_ifs <;> omega

/-- The messages emitted by a list of workers with the given success
flags: one `completed` message per successful worker. -/
lemma flatMap_workerSignals (l : List Bool) :
    l.flatMap workerSignals = List.replicate (l.filter id).length true := by
  induction l with
  | nil => simp
  | cons b rest ih =>
    cases b <;>
      simp [workerSignals, List.flatMap_cons, ih, List.replicate_succ, List.filter_cons]

/-- A worker that failed contributes no completion message, so the tally
of completion messages falls short of the worker count. -/
lemma filter_id_length_lt_of_mem_false (l : List Bool) (h : false ∈ l) :
    (l.filter id).length < l.length := by
  induction l with
  | nil => cases h
  | cons b rest ih =>
    cases b with
    | false =>
      have hle := List.length_filter_le id rest
      have hf : List.filter id (false :: rest) = List.filter id rest := by
        simp [List.filter_cons]
      rw [hf, List.length_cons]
      omega
    | true =>
      have hmem : false ∈ rest := by
        rcases List.mem_cons.mp h with hEq | hm
        · cases hEq
        · exact hm
      have hf : List.filter id (true :: rest) = true :: List.filter id rest := by
        simp [List.filter_cons]
      rw [hf, List.length_cons, List.length_cons]
      exact Nat.succ_lt_succ (ih hmem)

/-- Closed form of the error-free merge loop: starting at `current`, it
appends the shards `current, current+1, …` in strict ascending order,
emits `delete i` immediately after `append i`, and emits `close` last. -/
lemma mergeFrom_eq (shards : Nat → List α) :
    ∀ (remaining current : Nat),
      mergeFrom shards remaining current =
        ((List.range' current remaining).flatMap shards,
          (List.range' current remaining).flatMap
            (fun j => [MergeEvent.append j, MergeEvent.delete j]) ++ [MergeEvent.close]) := by
  intro remaining
  induction remaining with
  | zero => intro current; simp [mergeFrom]
  | succ r ih =>
    intro current
    rw [mergeFrom, ih, List.range'_succ]
    simp [List.flatMap_cons]

/-- Decomposition of the fallible merge loop over a trouble-free stretch
of `k` shards: each of them is readable and the sink accepts its whole
content, so each is appended and deleted in order and the loop carries
on at position `current + k`. -/
lemma mergeFromE_good_prefix (shards : Nat → Option (List α))
    (sinkFail : Nat → Option Nat) :
    ∀ (k remaining current : Nat), k ≤ remaining →
      (∀ j, j < k → (shards (current + j)).isSome ∧ sinkFail (current + j) = none) →
      mergeFromE shards sinkFail remaining current =
        ⟨(List.range' current k).flatMap (fun j => (shards j).getD []) ++
            (mergeFromE shards sinkFail (remaining - k) (current + k)).output,
          List.range' current k ++
            (mergeFromE shards sinkFail (remaining - k) (current + k)).deleted,
          (mergeFromE shards sinkFail (remaining - k) (current + k)).closed,
          (mergeFromE shards sinkFail (remaining - k) (current + k)).failedAt⟩ := by
  intro k
  induction k with
  | zero =>
    intro remaining current _ _
    simp
  | succ k ih =>
    intro remaining current hk hgood
    obtain ⟨r, rfl⟩ : ∃ r, remaining = r + 1 := ⟨remaining - 1, by omega⟩
    obtain ⟨hsome0, hnone0⟩ :
        (shards current).isSome ∧ sinkFail current = none := by
      simpa using hgood 0 (Nat.succ_pos k)
    obtain ⟨content, hc⟩ := Option.isSome_iff_exists.mp hsome0
    rw [mergeFromE, hc, hnone0]
    have hgood2 : ∀ j, j < k →
        (shards (current + 1 + j)).isSome ∧ sinkFail (current + 1 + j) = none := by
      intro j hj
      have harg : current + 1 + j = current + (j + 1) := by omega
      rw [harg]
      exact hgood (j + 1) (by omega)
    rw [ih r (current + 1) (by omega) hgood2]
    have harith1 : r + 1 - (k + 1) = r - k := by omega
    have harith2 : current + (k + 1) = current + 1 + k := by omega
    rw [harith1, harith2, List.range'_succ]
    simp [List.flatMap_cons, List.cons_append, List.append_assoc, hc]

/-- The shard sizes dispatched by `src/unnamed/part_002` always sum to
exactly `numRecords`: the last worker receives whatever remains after
`recordsPerWorker` was handed to each of the other workers. -/
lemma shardSizes_sum (numRecords numCPUs : Nat) (hW : 1 ≤ numCPUs) :
    (shardSizes numRecords numCPUs).sum = numRecords := by
  obtain ⟨W, rfl⟩ : ∃ W, numCPUs = W + 1 := ⟨numCPUs - 1, by omega⟩
  set b : Int := (recordsPerWorker numRecords (W + 1) : Int) with hb
  have hlast : W + 1 - 1 = W := by omega
  rw [shardSizes, List.range_succ, List.map_append, List.sum_append]
  have hmap : (List.range W).map (fun i =>
      if i = W + 1 - 1 then (numRecords : Int) - b * i else b) =
      List.replicate W b := by
    have hcong : ∀ i ∈ List.range W,
        (if i = W + 1 - 1 then (numRecords : Int) - b * i else b) = b := by
      intro i hi
      have hlt : i < W := List.mem_range.mp hi
      have hne : i ≠ W + 1 - 1 := by omega
      rw [if_neg hne]
    rw [List.map_congr_left hcong, List.map_const', List.length_range]
  rw [hmap, List.sum_replicate, nsmul_eq_mul]
  have htail : ((List.map (fun i =>
      if i = W + 1 - 1 then (numRecords : Int) - b * i else b) [W]).sum) =
      (numRecords : Int) - b * W := by
    simp [hlast]
  rw [htail]
  ring

/-- All shard sizes of `src/unnamed/part_002` except the last equal
`recordsPerWorker`, and the last equals the remainder. -/
lemma shardSizes_get (numRecords numCPUs : Nat) (hW : 1 ≤ numCPUs) :
    (∀ i, i + 1 < numCPUs →
        (shardSizes numRecords numCPUs)[i]? =
          some (recordsPerWorker numRecords numCPUs : Int))
    ∧ (shardSizes numRecords numCPUs)[numCPUs - 1]? =
        some ((numRecords : Int) -
          (recordsPerWorker numRecords numCPUs : Int) * (numCPUs - 1)) := by
  constructor
  · intro i hi
    rw [shardSizes, List.getElem?_map, List.getElem?_range (by omega)]
    have hne : i ≠ numCPUs - 1 := by omega
    simp [hne]
  · rw [shardSizes, List.getElem?_map, List.getElem?_range (by omega)]
    simp
    omega

/-- Two-column schema with the same `Order` string `"3"` on both
columns: the concrete duplicate-ordinal input of the spec's scenario. -/
def dupSchema : List ColumnInfo :=
  [⟨"Numeric", none, "3", "id", "0", "0", "1"⟩,
   ⟨"String", some "10", "3", "name", "0", "0", "0"⟩]

/-- Two-column schema whose `Order` strings `"3"` and `"03"` are
distinct as strings but parse to the same number 3. -/
def numericTieSchema : List ColumnInfo :=
  [⟨"Numeric", none, "3", "a", "0", "0", "1"⟩,
   ⟨"String", some "10", "03", "b", "0", "0", "0"⟩]

/-- Two-column schema given out of ordinal order (`Order` `"2"` before
`"1"`), used to exercise the validation-then-sort sequence. -/
def demoSchema : List ColumnInfo :=
  [⟨"String", some "10", "2", "name", "0", "0", "0"⟩,
   ⟨"Numeric", none, "1", "id", "0", "0", "1"⟩]

/-- Shard contents for a concrete failed merge: shard file 0 is readable
and holds one row, shard file 1 is unreadable. -/
def badShards : Nat → Option (List String) :=
  fun i => if i = 0 then some ["row0"] else none

/-- A final sink that never reports a write error. -/
def noSinkError : Nat → Option Nat :=
  fun _ => none

/-- Shard contents for a concrete sink-write-error merge: every shard
file is readable and holds two rows. -/
def twoRowShards : Nat → Option (List String) :=
  fun _ => some ["a", "b"]

/-- A final sink that reports a write error while shard 1 is being
piped, after accepting one of its lines. -/
def sinkErrorAtOne : Nat → Option Nat :=
  fun i => if i = 1 then some 1 else none

/-- The batched-write loop respects backpressure from any starting
point: a saturating write is always followed by the drain suspension
before the next batch write is issued. -/
lemma checkBackpressure_writeBatchLoop (total batchSize : Nat) (sat : Nat → Bool) :
    ∀ (fuel written k : Nat),
      checkBackpressure false (writeBatchLoop total batchSize sat fuel written k) = true := by
  intro fuel
  induction fuel with
  | zero => intro written k; simp [writeBatchLoop, checkBackpressure]
  | succ f ih =>
    intro written k
    rw [writeBatchLoop]
    by_cases hs : sat k = true
    · by_cases hb : min (written + batchSize) total < total
      · simp only [hs, if_pos, if_true, hb, checkBackpressure]
        simpa [hs] using ih (min (written + batchSize) total) (k + 1)
      · simp [hs, hb, checkBackpressure]
    · by_cases hb : min (written + batchSize) total < total
      · simp only [Bool.not_eq_true] at hs
        simp only [hs, Bool.false_eq_true, if_false, hb, if_true, checkBackpressure]
        simpa using ih (min (written + batchSize) total) (k + 1)
      · simp only [Bool.not_eq_true] at hs
        simp [hs, hb, checkBackpressure]

/-- The batched-write loop yields control back to the event scheduler
(`setImmediate`) between any two batch writes. -/
lemma checkYields_writeBatchLoop (total batchSize : Nat) (sat : Nat → Bool) :
    ∀ (fuel written k : Nat),
      checkYields false (writeBatchLoop total batchSize sat fuel written k) = true := by
  intro fuel
  induction fuel with
  | zero => intro written k; simp [writeBatchLoop, checkYields]
  | succ f ih =>
    intro written k
    rw [writeBatchLoop]
    by_cases hs : sat k = true
    · by_cases hb : min (written + batchSize) total < total
      · simp only [hs, if_true, hb, checkYields]
        simpa using ih (min (written + batchSize) total) (k + 1)
      · simp [hs, hb, checkYields]
    · by_cases hb : min (written + batchSize) total < total
      · simp only [Bool.not_eq_true] at hs
        simp only [hs, Bool.false_eq_true, if_false, hb, if_true, checkYields]
        simpa using ih (min (written + batchSize) total) (k + 1)
      · simp only [Bool.not_eq_true] at hs
        simp [hs, hb, checkYields]

/-- Claim C1, failing-input evidence (code bug): for `totalRecords = 5`
and `workerCount = 2`, `src/generate.ts` hands each of the two workers
`ceil(5/2) = 3` records (there is no last-worker adjustment), and
`mergeFiles` concatenates the shard files whole — headers included — so
the final output holds 6 data rows (not 5) and 2 header lines (not 1),
contradicting the claimed exact row count. -/
theorem c1_failing_input :
    recordsPerWorker 5 2 = 3
    ∧ finalDataRowCount 5 2 = 6
    ∧ finalHeaderCount 5 2 = 2
    ∧ finalDataRowCount 5 2 ≠ 5 := by decide

/-- Claim C2, counterexample: with `totalRecords = 1` and
`workerCount = 4`, the dispatch of `src/unnamed/part_002` hands the first
three workers `ceil(1/4) = 1` record each and the last worker
`1 - 1*3 = -2` records, so the claim's "no shard size is negative"
conjunct is false. -/
theorem c2_counterexample :
    shardSizes 1 4 = [1, 1, 1, -2]
    ∧ ¬ (∀ x ∈ shardSizes 1 4, (0 : Int) ≤ x) := by decide

/-- Claim C2 (amended): for every `totalRecords ≥ 0` and
`workerCount ≥ 1`, every worker except the last is assigned
`base = ceil(totalRecords / workerCount)` records, the last worker is
assigned `totalRecords - base * (workerCount - 1)`, and the sum of all
shard sizes equals `totalRecords` exactly; the last shard size may be
negative (the non-negativity conjunct of the original claim fails). -/
theorem c2_shard_sizes (numRecords numCPUs : Nat) (hW : 1 ≤ numCPUs) :
    (∀ i, i + 1 < numCPUs →
        (shardSizes numRecords numCPUs)[i]? =
          some (recordsPerWorker numRecords numCPUs : Int))
    ∧ (shardSizes numRecords numCPUs)[numCPUs - 1]? =
        some ((numRecords : Int) -
          (recordsPerWorker numRecords numCPUs : Int) * (numCPUs - 1))
    ∧ (shardSizes numRecords numCPUs).sum = numRecords :=
  ⟨(shardSizes_get numRecords numCPUs hW).1,
    (shardSizes_get numRecords numCPUs hW).2,
    shardSizes_sum numRecords numCPUs hW⟩

/-- Claim C2, witness: the spec's own scenario `totalRecords = 5`,
`workerCount = 2` gives shards of sizes 3 and 2 summing to 5. -/
theorem c2_shard_sizes_witness :
    (shardSizes 5 2)[0]? = some 3
    ∧ (shardSizes 5 2)[1]? = some 2
    ∧ (shardSizes 5 2).sum = 5 := by
  obtain ⟨ha, hb, hc⟩ := c2_shard_sizes 5 2 (by decide)
  refine ⟨?_, ?_, ?_⟩
  · simpa using ha 0 (by decide)
  · simpa using hb
  · simpa using hc

/-- Claim C3: the primary's completion protocol.  The messages the
primary receives are exactly one `completed` per successful worker; its
handler invokes `mergeFiles` exactly once when the tally reaches
`numCPUs` and zero times for any smaller tally (never before); a worker
whose `writeCSVInBatches` rejects exits with status 1 and sends no
message, and if any worker fails the merge is never invoked. -/
theorem c3_completion_protocol (W : Nat) (outcomes : List Bool)
    (hW : 1 ≤ W) (hlen : outcomes.length = W) :
    outcomes.flatMap workerSignals =
      List.replicate ((outcomes.filter id).length) true
    ∧ (coordRun W (outcomes.flatMap workerSignals)).mergeInvocations =
        (if (outcomes.filter id).length = W then 1 else 0)
    ∧ (∀ j, j < W →
        (coordRun W (List.replicate j true)).mergeInvocations = 0)
    ∧ workerSignals false = []
    ∧ workerExitCode false = 1
    ∧ (false ∈ outcomes →
        (coordRun W (outcomes.flatMap workerSignals)).mergeInvocations = 0) := by
  have hflat := flatMap_workerSignals outcomes
  have hk : (outcomes.filter id).length ≤ W :=
    hlen ▸ List.length_filter_le id outcomes
  refine ⟨hflat, ?_, ?_, rfl, rfl, ?_⟩
  · rw [hflat, coordRun_replicate]
    dsimp only
    split_ifs <;> omega
  · intro j hj
    rw [coordRun_replicate]
    dsimp only
    have hfalse : ¬(1 ≤ W ∧ W ≤ j) := by omega
    rw [if_neg hfalse]
  · intro hfalse
    have hlt : (outcomes.filter id).length < W :=
      hlen ▸ filter_id_length_lt_of_mem_false outcomes hfalse
    rw [hflat, coordRun_replicate]
    dsimp only
    have hcond : ¬(1 ≤ W ∧ W ≤ (outcomes.filter id).length) := by omega
    rw [if_neg hcond]

/-- Claim C3, witness: with two workers, two successes trigger exactly
one merge; one success and one failure trigger none, and the failed
worker exits 1. -/
theorem c3_completion_witness :
    (coordRun 2 ([true, true].flatMap workerSignals)).mergeInvocations = 1
    ∧ (coordRun 2 ([true, false].flatMap workerSignals)).mergeInvocations = 0
    ∧ workerExitCode false = 1 := by
  have h1 := c3_completion_protocol 2 [true, true] (by decide) (by decide)
  have h2 := c3_completion_protocol 2 [true, false] (by decide) (by decide)
  exact ⟨h1.2.1.trans (by decide), h2.2.2.2.2.2 (by decide), h1.2.2.2.2.1⟩

/-- Claim C4: `mergeFiles` appends the shard files in strict ascending
index order 0, 1, …, shardCount−1, emits each `delete i` immediately
after shard `i` has been fully appended, closes the output only after
the last shard, and the final content is the concatenation of the shard
contents in that order (rows inside a shard keep generation order). -/
theorem c4_merge_order {α : Type} (shards : Nat → List α) (numFiles : Nat) :
    mergeFilesRun shards numFiles =
      ((List.range numFiles).flatMap shards,
        (List.range numFiles).flatMap
          (fun i => [MergeEvent.append i, MergeEvent.delete i]) ++
          [MergeEvent.close]) := by
  simp only [mergeFilesRun]
  rw [mergeFrom_eq, List.range_eq_range']

/-- Claim C5, counterexample: merging 2 shards where shard 1 is
unreadable rejects with exit code 1, but the final output file is
present on disk and its content `["row0"]` is byte-identical to the
output of a fully successful one-shard merge — it is neither absent nor
explicitly marked incomplete. -/
theorem c5_counterexample :
    (mergeFilesRunE badShards noSinkError 2).failedAt = some 1
    ∧ (mergeFilesRunE badShards noSinkError 2).output = ["row0"]
    ∧ mergeExitCode (mergeFilesRunE badShards noSinkError 2) = 1
    ∧ mergeFilesRunE badShards noSinkError 1 = ⟨["row0"], [0], true, none⟩
    ∧ (mergeFilesRunE badShards noSinkError 2).output =
        (mergeFilesRunE badShards noSinkError 1).output :=
  ⟨rfl, rfl, rfl, rfl, rfl⟩

/-- Claim C5 (amended): if the merge first fails at shard `i` — because
that shard file is unreadable, or because the final sink reports a
write error while shard `i` is being piped — then the merge aborts
immediately at `i`: the already-merged shards `0..i-1` were appended
and deleted, no shard at index ≥ `i` (the not-yet-merged ones, the
failing shard included) is deleted, the output stream is never closed,
and the error is surfaced as a fatal merge failure with process
exit 1; the output file remains on disk holding the merged prefix plus
whatever part of shard `i` the sink accepted (it is not removed and no
incompleteness marker is written). -/
theorem c5_merge_failure {α : Type} (shards : Nat → Option (List α))
    (sinkFail : Nat → Option Nat) (numFiles i : Nat) (hin : i < numFiles)
    (hgood : ∀ j, j < i → (shards j).isSome ∧ sinkFail j = none)
    (htrig : shards i = none ∨
      ((shards i).isSome ∧ (sinkFail i).isSome)) :
    (mergeFilesRunE shards sinkFail numFiles).deleted = List.range i
    ∧ (∀ j, i ≤ j → j ∉ (mergeFilesRunE shards sinkFail numFiles).deleted)
    ∧ (mergeFilesRunE shards sinkFail numFiles).closed = false
    ∧ (mergeFilesRunE shards sinkFail numFiles).failedAt = some i
    ∧ mergeExitCode (mergeFilesRunE shards sinkFail numFiles) = 1
    ∧ (shards i = none →
        (mergeFilesRunE shards sinkFail numFiles).output =
          (List.range i).flatMap (fun j => (shards j).getD []))
    ∧ (∀ content accepted, shards i = some content → sinkFail i = some accepted →
        (mergeFilesRunE shards sinkFail numFiles).output =
          (List.range i).flatMap (fun j => (shards j).getD []) ++
            content.take accepted) := by
  have hpre := mergeFromE_good_prefix shards sinkFail i numFiles 0 (by omega)
    (fun j hj => by simpa using hgood j hj)
  simp only [Nat.zero_add] at hpre
  obtain ⟨r, hr⟩ : ∃ r, numFiles - i = r + 1 := ⟨numFiles - i - 1, by omega⟩
  rcases htrig with hbad | ⟨hsome, hsink⟩
  · have hhead : mergeFromE shards sinkFail (numFiles - i) i =
        ⟨[], [], false, some i⟩ := by
      rw [hr, mergeFromE, hbad]
    have hrun : mergeFilesRunE shards sinkFail numFiles =
        ⟨(List.range i).flatMap (fun j => (shards j).getD []),
          List.range i, false, some i⟩ := by
      simp only [mergeFilesRunE]
      rw [hpre, hhead, ← List.range_eq_range']
      simp
    refine ⟨?_, ?_, ?_, ?_, ?_, ?_, ?_⟩
    · rw [hrun]
    · intro j hj
      rw [hrun]
      simp only [List.mem_range]
      omega
    · rw [hrun]
    · rw [hrun]
    · rw [hrun]; rfl
    · intro _
      rw [hrun]
    · intro content accepted hcon _
      rw [hcon] at hbad
      cases hbad
  · obtain ⟨content, hc⟩ := Option.isSome_iff_exists.mp hsome
    obtain ⟨accepted, hp⟩ := Option.isSome_iff_exists.mp hsink
    have hhead : mergeFromE shards sinkFail (numFiles - i) i =
        ⟨content.take accepted, [], false, some i⟩ := by
      rw [hr, mergeFromE, hc, hp]
    have hrun : mergeFilesRunE shards sinkFail numFiles =
        ⟨(List.range i).flatMap (fun j => (shards j).getD []) ++
            content.take accepted,
          List.range i, false, some i⟩ := by
      simp only [mergeFilesRunE]
      rw [hpre, hhead, ← List.range_eq_range']
      simp
    refine ⟨?_, ?_, ?_, ?_, ?_, ?_, ?_⟩
    · rw [hrun]
    · intro j hj
      rw [hrun]
      simp only [List.mem_range]
      omega
    · rw [hrun]
    · rw [hrun]
    · rw [hrun]; rfl
    · intro hbad
      rw [hbad] at hc
      cases hc
    · intro content2 accepted2 hc2 hp2
      obtain rfl : content = content2 := Option.some.inj (hc.symm.trans hc2)
      obtain rfl : accepted = accepted2 := Option.some.inj (hp.symm.trans hp2)
      rw [hrun]

/-- Claim C5, witness: the concrete two-shard merge with shard 1
unreadable, and the concrete three-shard merge where the final sink
errors while shard 1 is piped after accepting one line. -/
theorem c5_merge_failure_witness :
    ((mergeFilesRunE badShards noSinkError 2).deleted = List.range 1
      ∧ mergeExitCode (mergeFilesRunE badShards noSinkError 2) = 1
      ∧ (mergeFilesRunE badShards noSinkError 2).output =
          (List.range 1).flatMap (fun j => (badShards j).getD []))
    ∧ ((mergeFilesRunE twoRowShards sinkErrorAtOne 3).deleted = List.range 1
      ∧ (mergeFilesRunE twoRowShards sinkErrorAtOne 3).closed = false
      ∧ mergeExitCode (mergeFilesRunE twoRowShards sinkErrorAtOne 3) = 1
      ∧ (mergeFilesRunE twoRowShards sinkErrorAtOne 3).output =
          (List.range 1).flatMap (fun j => (twoRowShards j).getD []) ++
            (["a", "b"] : List String).take 1) := by
  have h1 := c5_merge_failure badShards noSinkError 2 1 (by decide)
    (fun j hj => by
      have hj0 : j = 0 := by omega
      subst hj0
      exact ⟨by decide, rfl⟩)
    (Or.inl (by decide))
  have h2 := c5_merge_failure twoRowShards sinkErrorAtOne 3 1 (by decide)
    (fun j hj => by
      have hj0 : j = 0 := by omega
      subst hj0
      exact ⟨by decide, by decide⟩)
    (Or.inr ⟨by decide, by decide⟩)
  exact ⟨⟨h1.1, h1.2.2.2.2.1, h1.2.2.2.2.2.1 (by decide)⟩,
    ⟨h2.1, h2.2.2.1, h2.2.2.2.2.1,
      h2.2.2.2.2.2.2 ["a", "b"] 1 (by decide) (by decide)⟩⟩

/-- Claim C6: in the batched-write loop of `writeCSVInBatches`, after a
batch write that the sink reports as saturating (`write` returned
`false`), no further batch write is issued before the sink's drain
signal, and the loop yields control (`setImmediate`) between any two
batch writes — for every record count, batch size, saturation pattern
and trace length. -/
theorem c6_backpressure_and_yield (total batchSize fuel : Nat) (sat : Nat → Bool) :
    checkBackpressure false (writeShardTrace total batchSize sat fuel) = true
    ∧ checkYields false (writeShardTrace total batchSize sat fuel) = true := by
  constructor
  · have h := checkBackpressure_writeBatchLoop total batchSize sat fuel 0 0
    simpa [writeShardTrace, checkBackpressure] using h
  · have h := checkYields_writeBatchLoop total batchSize sat fuel 0 0
    simpa [writeShardTrace, checkYields] using h

/-- Claim C7, counterexample: a schema whose two columns both carry
`Order` `"3"` makes startup fail before any worker is forked or file is
created — but the primary's `.catch` handler only logs, so the recorded
exit code is 0, refuting the claim's non-zero exit status. -/
theorem c7_counterexample :
    primaryStartup dupSchema =
      StartupOutcome.schemaFailure
        "Error processing data: Duplicate order number found: 3" 0 false := by
  rfl

/-- Claim C7 (amended): any schema with a duplicated ordinal string
fails at startup before any generation or file creation, with the error
logged — but the process exit status is 0, not non-zero, because the
catch handler never calls `process.exit`. -/
theorem c7_schema_failure (cols : List ColumnInfo)
    (hdup : ¬ (cols.map (fun c => c.Order)).Nodup) :
    ∃ msg, primaryStartup cols = StartupOutcome.schemaFailure msg 0 false := by
  cases hE : checkDuplicateOrders cols with
  | ok u =>
    cases u
    exact absurd ((checkDuplicateOrders_ok_iff cols).mp hE) hdup
  | error msg =>
    exact ⟨"Error processing data: " ++ msg, by simp [primaryStartup, hE]⟩

/-- Claim C7, witness: the duplicate-ordinal schema with `"3"` twice. -/
theorem c7_schema_failure_witness :
    ∃ msg, primaryStartup dupSchema = StartupOutcome.schemaFailure msg 0 false :=
  c7_schema_failure dupSchema (by decide)

/-- Claim C8, counterexample: an internal `totalRecords = 0` run with 2
workers produces a final output of two header lines, not "only the
header row"; moreover the CLI maps the argument `0` to the default 1000,
so a 0-record run cannot even be requested from the command line. -/
theorem c8_counterexample :
    finalOutputLines 0 2 = [Line.header, Line.header]
    ∧ finalOutputLines 0 2 ≠ [Line.header]
    ∧ cliNumRecords (some 0) = 1000 := by decide

/-- Helper: concatenating one copy of `[a]` per index in `0..n-1`. -/
lemma flatMap_const_singleton {α : Type} (n : Nat) (a : α) :
    (List.range n).flatMap (fun _ => [a]) = List.replicate n a := by
  induction n with
  | zero => simp
  | succ m ih =>
    rw [List.range_succ]
    simp [ih, List.replicate_succ', List.flatMap_append]

/-- Claim C8 (amended): `writeCSVInBatches` with `recordCount = 0` still
writes the header and nothing else (a valid empty-body shard file); a
run with internal `totalRecords = 0` and `workerCount` workers merges
`workerCount` header-only shard files, so the final output consists of
`workerCount` header lines and zero data rows — "only the header row"
holds only for `workerCount = 1`; and the CLI argument `0` falls back
to the default 1000. -/
theorem c8_zero_records (w numCPUs : Nat) (hW : 1 ≤ numCPUs) :
    shardFileLines w 0 = [Line.header]
    ∧ finalOutputLines 0 numCPUs = List.replicate numCPUs Line.header
    ∧ finalDataRowCount 0 numCPUs = 0
    ∧ cliNumRecords (some 0) = 1000 := by
  have hzero : recordsPerWorker 0 numCPUs = 0 := by
    rw [recordsPerWorker]
    exact Nat.div_eq_of_lt (by omega)
  have hshard : ∀ v : Nat, shardFileLines v 0 = [Line.header] := by
    intro v; simp [shardFileLines]
  have hfinal : finalOutputLines 0 numCPUs = List.replicate numCPUs Line.header := by
    rw [finalOutputLines, hzero]
    have hfun : (fun v => shardFileLines v 0) = fun _ => [Line.header] :=
      funext hshard
    rw [hfun, flatMap_const_singleton]
  refine ⟨hshard w, hfinal, ?_, rfl⟩
  rw [finalDataRowCount, hfinal]
  refine List.countP_eq_zero.mpr ?_
  intro a ha
  have := List.eq_of_mem_replicate ha
  subst this
  simp

/-- Claim C8, witness: worker 7 writing an empty shard and a
`totalRecords = 0` run with 3 workers. -/
theorem c8_zero_records_witness :
    shardFileLines 7 0 = [Line.header]
    ∧ finalOutputLines 0 3 = List.replicate 3 Line.header
    ∧ finalDataRowCount 0 3 = 0
    ∧ cliNumRecords (some 0) = 1000 :=
  c8_zero_records 7 3 (by decide)

/-- Claim C9, counterexample: the columns with `Order` `"3"` and `"03"`
pass `checkDuplicateOrders` (the strings differ) yet have the same
numeric ordinal 3, so "ties cannot occur after validation" is false. -/
theorem c9_counterexample :
    checkDuplicateOrders numericTieSchema = Except.ok ()
    ∧ (numericTieSchema.map (fun c => c.Order)).Nodup
    ∧ numericTieSchema.map orderKey = [3, 3] := by
  refine ⟨rfl, by decide, rfl⟩

/-- Claim C9 (amended): after `checkDuplicateOrders` succeeds, the
`Order` strings are pairwise distinct (but numeric ties may remain, as
distinct strings can parse to equal numbers), and the sort returns a
permutation of the specs in nondecreasing numeric ordinal order. -/
theorem c9_validate_sort (cols : List ColumnInfo)
    (hok : checkDuplicateOrders cols = Except.ok ()) :
    (cols.map (fun c => c.Order)).Nodup
    ∧ (sortByOrdinal cols).Pairwise (fun a b => orderKey a ≤ orderKey b)
    ∧ (sortByOrdinal cols).Perm cols := by
  refine ⟨(checkDuplicateOrders_ok_iff cols).mp hok, ?_,
    List.mergeSort_perm cols _⟩
  have hp : (List.mergeSort cols
      (fun a b => decide (orderKey a ≤ orderKey b))).Pairwise
      (fun a b => decide (orderKey a ≤ orderKey b) = true) := by
    refine List.sorted_mergeSort ?_ ?_ cols
    · intro a b c hab hbc
      simp only [decide_eq_true_eq] at hab hbc ⊢
      exact le_trans hab hbc
    · intro a b
      simp only [Bool.or_eq_true, decide_eq_true_eq]
      exact le_total _ _
  rw [sortByOrdinal]
  refine hp.imp ?_
  intro a b hab
  simpa using hab

/-- Claim C9, witness: the two-column schema given out of order. -/
theorem c9_validate_sort_witness :
    (demoSchema.map (fun c => c.Order)).Nodup
    ∧ (sortByOrdinal demoSchema).Pairwise (fun a b => orderKey a ≤ orderKey b)
    ∧ (sortByOrdinal demoSchema).Perm demoSchema :=
  c9_validate_sort demoSchema rfl

/-- Claim C10: the row encoder wraps in double quotes exactly the string
values containing the comma delimiter and emits every other value in
its natural join form, joining fields in the given (ordinal) column
order; the spec's scenario value `Smith, Jr.` appears quoted in its
row, and the header joins the `ExcelColumnName` fields in the same
order (shown on the ordinal-sorted two-column scenario schema). -/
theorem c10_encoding :
    (∀ s, s.toList.contains ',' = true →
        encodeField (JSValue.vStr s) = "\"" ++ s ++ "\"")
    ∧ (∀ s, s.toList.contains ',' = false → encodeField (JSValue.vStr s) = s)
    ∧ (∀ n, encodeField (JSValue.vNum n) = toString n)
    ∧ (∀ values, createPersonObject values =
        String.intercalate "," (values.map encodeField))
    ∧ createPersonObject [JSValue.vNum 123, JSValue.vStr "Smith, Jr."] =
        "123,\"Smith, Jr.\""
    ∧ (∀ cols, csvHeader cols =
        String.intercalate "," (cols.map (fun c => c.ExcelColumnName)))
    ∧ csvHeader (sortByOrdinal demoSchema) = "id,name" := by
  refine ⟨?_, ?_, fun n => rfl, fun values => rfl, rfl, fun cols => rfl, ?_⟩
  · intro s hs
    simp only [encodeField]
    rw [hs]
    simp
  · intro s hs
    simp only [encodeField]
    rw [hs]
    simp
  · have hsorted : sortByOrdinal demoSchema =
        [⟨"Numeric", none, "1", "id", "0", "0", "1"⟩,
         ⟨"String", some "10", "2", "name", "0", "0", "0"⟩] := by
      simp [sortByOrdinal, demoSchema, List.mergeSort, orderKey, parseIntJS]
    rw [hsorted]
    rfl

/-- Claim C10, witness: the scenario string is quoted, a plain string is
not. -/
theorem c10_encoding_witness :
    encodeField (JSValue.vStr "Smith, Jr.") = "\"Smith, Jr.\""
    ∧ encodeField (JSValue.vStr "Smith") = "Smith" :=
  ⟨c10_encoding.1 "Smith, Jr." (by decide), c10_encoding.2.1 "Smith" (by decide)⟩
